import Mathlib

/-!
Verification development for the `version_control_helper_mcp` repository.

The repository is a thin layer over a VCS backend (GitPython): `git_utils.py`
defines a `GitManager` bound to one filesystem path, and `tools.py` dispatches
named operations to it.  We embed the backend state shallowly: a repository is
a set of branch pointers, a HEAD reference, a list of commit objects (each
carrying its tree snapshot) and an index, together with the directory's
working-tree files.  Machinery the backend provides (ref resolution, tree
diffing, reset, checkout) is modelled explicitly; fallible operations return
`Except`.  Python string operations (`startswith`, truthiness, `x or y`) are
modelled by dedicated helpers.
-/

namespace VCH

/-- Python `str.startswith(pre)`: `pre` is a prefix of `s` as a character
sequence. -/
def pyStartsWith (s pre : String) : Bool := pre.data.isPrefixOf s.data

/-- Python truthiness of an optional string: `None` and `""` are falsy. -/
def pyTruthyStr : Option String → Bool
  | none => false
  | some s => !(s == "")

/-- Python `a or b` on optional strings (`None` and `""` are falsy). -/
def pyOrStr (a b : Option String) : Option String :=
  match a with
  | some s => if s == "" then b else some s
  | none => b

/-- Splitting a character sequence at newline characters, keeping empty
pieces (the behaviour of Python `str.split("\n")`). -/
def splitNlAux : List Char → List Char → List String
  | [], acc => [String.mk acc.reverse]
  | c :: cs, acc =>
    if c = '\x0a' then String.mk acc.reverse :: splitNlAux cs []
    else splitNlAux cs (c :: acc)

/-- Python `str.split("\n")`. -/
def pySplitNl (s : String) : List String := splitNlAux s.data []

/-- Whitespace characters removed by Python `str.strip()`. -/
def isSpaceChar (c : Char) : Bool :=
  c = ' ' || c = '\x09' || c = '\x0a' || c = '\x0d'

/-- Python `str.strip()`: drop leading and trailing whitespace. -/
def pyStrip (s : String) : String :=
  String.mk (((s.data.dropWhile isSpaceChar).reverse.dropWhile
    isSpaceChar).reverse)

/- ===== Result model (models.py) ===== -/

/-- models.py `CommitInfo`. -/
structure CommitInfo where
  sha : String
  short_sha : String
  message : String
  author : String
  author_email : String
  timestamp : Int
deriving Repr, DecidableEq

/-- models.py `CommitList`. -/
structure CommitList where
  commits : List CommitInfo
  total_count : Nat
  branch : String
deriving Repr, DecidableEq

/-- models.py `FileChange`.  The source declares `filename : str`; it is built
as `diff.b_path or diff.a_path`, whose value is an optional string, so the
field is optional here. -/
structure FileChange where
  filename : Option String
  status : String
  additions : Nat
  deletions : Nat
  patch : Option String := none
deriving Repr, DecidableEq

/-- models.py `CommitDiff`. -/
structure CommitDiff where
  from_commit : String
  to_commit : String
  files : List FileChange
  total_additions : Nat
  total_deletions : Nat
  summary : String
deriving Repr, DecidableEq

/-- models.py `BranchInfo`. -/
structure BranchInfo where
  name : String
  is_current : Bool
  last_commit_sha : String
  last_commit_message : String
deriving Repr, DecidableEq

/-- models.py `RepoStatus`. -/
structure RepoStatus where
  is_initialized : Bool
  current_branch : Option String := none
  has_changes : Bool
  staged_files : List String := []
  modified_files : List String := []
  untracked_files : List String := []
deriving Repr, DecidableEq

/- ===== VCS backend state model ===== -/

/-- A tree snapshot: file path with its content. -/
abbrev Tree := List (String × String)

/-- A commit object of the backend: identifier, message, parent identifiers,
tree snapshot, and author metadata. -/
structure CommitObj where
  sha : String
  message : String
  parents : List String
  tree : Tree
  author : String
  author_email : String
  committed_date : Int
deriving Repr, DecidableEq

/-- The HEAD reference: attached to a branch name, or detached at a commit. -/
inductive HeadRef where
  | branch (name : String)
  | detached (sha : String)
deriving Repr, DecidableEq

/-- The repository metadata held in the `.git` directory: branch pointers
(name with tip identifier), HEAD, all commit objects, and the index. -/
structure GitMeta where
  branches : List (String × String)
  headRef : HeadRef
  commits : List CommitObj
  index : Tree
deriving Repr, DecidableEq

/-- The observable state at a repository path: the path itself, the files in
the directory (working tree) and, when the path is a valid repository, its
git metadata (`none` models `InvalidGitRepositoryError`, including
nonexistent directories). -/
structure PathState where
  path : String
  files : Tree
  git : Option GitMeta
deriving Repr, DecidableEq

/-- Errors surfaced by the manager and tools (`ValueError` in the source). -/
inductive GitError where
  | notInitialized (path : String)
  | badRef (r : String)
  | validationError (mode : String)
  | resetFailed (target reason : String)
  | branchNotFound (name : String)
  | backendFailed (reason : String)
deriving Repr, DecidableEq

/-- One entry of the backend's commit-to-commit diff (GitPython `Diff`):
change-kind flags, the two paths, and the decoded patch text (`none` when the
diff produced no patch body or it was undecodable). -/
structure DiffEntry where
  new_file : Bool
  deleted_file : Bool
  renamed : Bool
  a_path : Option String
  b_path : Option String
  diff : Option String
deriving Repr, DecidableEq

/- ===== Backend primitives ===== -/

/-- Content of a path in a tree, if present. -/
def lookupTree (t : Tree) (p : String) : Option String :=
  (t.find? (fun e => e.1 == p)).map Prod.snd

/-- Paths at which two trees differ (present in only one, or with different
content).  This is the path list of a backend tree diff. -/
def treeDiffPaths (a b : Tree) : List String :=
  ((a.map Prod.fst ++ b.map Prod.fst).eraseDups).filter
    (fun p => lookupTree a p != lookupTree b p)

/-- Resolve HEAD to a commit identifier: the tip of the attached branch
(`none` when the branch is unborn), or the detached identifier. -/
def resolveHeadSha (m : GitMeta) : Option String :=
  match m.headRef with
  | .branch b => (m.branches.find? (fun e => e.1 == b)).map Prod.snd
  | .detached s => some s

/-- Look up a commit object by identifier. -/
def findCommit (m : GitMeta) (sha : String) : Option CommitObj :=
  m.commits.find? (fun c => c.sha == sha)

/-- The tree of the commit HEAD resolves to, if HEAD resolves. -/
def headTree (m : GitMeta) : Option Tree :=
  (resolveHeadSha m).bind (fun s => (findCommit m s).map CommitObj.tree)

/-- `repo.untracked_files`: working-tree paths absent from the index. -/
def untracked_files (m : GitMeta) (files : Tree) : List String :=
  (files.filter (fun e => !(m.index.any (fun i => i.1 == e.1)))).map Prod.fst

/-- Backend rev resolution (`repo.iter_commits` ref / `repo.commit`): the
symbolic "HEAD", a branch name, or a commit identifier. -/
def resolveRev (m : GitMeta) (rev : String) : Option String :=
  if rev == "HEAD" then resolveHeadSha m
  else
    match m.branches.find? (fun e => e.1 == rev) with
    | some e => some e.2
    | none => (findCommit m rev).map CommitObj.sha

/-- `repo.commit(rev)`: the commit object a rev resolves to. -/
def repoCommit (m : GitMeta) (rev : String) : Option CommitObj :=
  (resolveRev m rev).bind (findCommit m)

/-- History walk from a commit identifier (first-parent), producing at most
`fuel` commits, newest first (`repo.iter_commits(rev, max_count=fuel)`). -/
def walkHistory (m : GitMeta) (sha : String) : Nat → List CommitObj
  | 0 => []
  | Nat.succ n =>
    match findCommit m sha with
    | none => []
    | some c =>
      match c.parents with
      | [] => [c]
      | p :: _ => c :: walkHistory m p n

/-- Move the tip of a branch, creating the pointer if the branch is unborn. -/
def setBranchTip (bs : List (String × String)) (name sha : String) :
    List (String × String) :=
  if bs.any (fun e => e.1 == name) then
    bs.map (fun e => if e.1 == name then (e.1, sha) else e)
  else bs ++ [(name, sha)]

/-- Deterministic fresh commit identifier for the model. -/
def freshSha (m : GitMeta) : String := "commitsha" ++ toString m.commits.length

/-- `repo.index.commit(message)`: create a commit from the index with the
resolved HEAD (if any) as parent, and advance HEAD's target to it. -/
def indexCommit (m : GitMeta) (message : String) : String × GitMeta :=
  let sha := freshSha m
  let parents := match resolveHeadSha m with
    | some h => [h]
    | none => []
  let c : CommitObj :=
    { sha := sha, message := message, parents := parents, tree := m.index,
      author := "user", author_email := "user@example.com", committed_date := 0 }
  let m1 : GitMeta :=
    { m with
      commits := c :: m.commits,
      branches := match m.headRef with
        | .branch b => setBranchTip m.branches b sha
        | .detached _ => m.branches,
      headRef := match m.headRef with
        | .branch b => .branch b
        | .detached _ => .detached sha }
  (sha, m1)

/-- `repo.create_head(name, sha)`: add a branch pointer; the backend rejects
an existing name. -/
def createHead (m : GitMeta) (name sha : String) : Except GitError GitMeta :=
  if m.branches.any (fun e => e.1 == name) then .error (.backendFailed name)
  else .ok { m with branches := m.branches ++ [(name, sha)] }

/-- `repo.git.reset(mode, target)`: move HEAD's target to the resolved
commit; "soft" leaves index and working tree, "mixed" also resets the index,
"hard" also overwrites the working tree. -/
def gitResetBackend (m : GitMeta) (files : Tree) (mode target : String) :
    Except String (GitMeta × Tree) :=
  match resolveRev m target with
  | none => .error target
  | some sha =>
    match findCommit m sha with
    | none => .error target
    | some c =>
      let m1 : GitMeta :=
        { m with
          branches := match m.headRef with
            | .branch b => setBranchTip m.branches b sha
            | .detached _ => m.branches,
          headRef := match m.headRef with
            | .branch b => .branch b
            | .detached _ => .detached sha }
      if mode == "soft" then .ok (m1, files)
      else if mode == "mixed" then .ok ({ m1 with index := c.tree }, files)
      else .ok ({ m1 with index := c.tree }, c.tree)

/- ===== Session Manager (git_utils.py, GitManager) ===== -/

/-- `GitManager.is_initialized`: whether a valid repository exists at the
path. -/
def is_initialized (st : PathState) : Bool := st.git.isSome

/-- Fixed README content written by `GitManager.initialize`. -/
def readmeContent : String := "# Project\n\nInitialized by GitHub MCP Server.\n"

/-- `Repo.init`: a fresh repository with an unborn default branch, no
commits and an empty index. -/
def emptyMeta : GitMeta :=
  { branches := [], headRef := .branch "master", commits := [], index := [] }

/-- Stage every working-tree path absent from the index
(`index.add(untracked_files)`). -/
def addUntracked (index : Tree) (files : Tree) : Tree :=
  index ++ files.filter (fun e => !(index.any (fun i => i.1 == e.1)))

/-- `GitManager.initialize(initial_commit)` (named `init_repo` here).
Creates the directory if absent (no observable effect in this model); a no-op
message if already initialized; otherwise `Repo.init`, and when
`initial_commit` is set: create and stage a README if absent, stage untracked
files, and commit "Initial commit" when the fresh repository has no commits
(the backend's `index.commit` succeeds even with an empty index, so the
swallowed-failure fallback of the source is unreachable in this model). -/
def init_repo (st : PathState) (initial_commit : Bool) : String × PathState :=
  if st.git.isSome then
    ("Repository already initialized at " ++ st.path, st)
  else
    let m0 := emptyMeta
    if initial_commit then
      let files1 :=
        if (lookupTree st.files "README.md").isNone then
          st.files ++ [("README.md", readmeContent)]
        else st.files
      let m1 : GitMeta :=
        if (lookupTree st.files "README.md").isNone then
          { m0 with index := m0.index ++ [("README.md", readmeContent)] }
        else m0
      let m2 : GitMeta :=
        if !(untracked_files m1 files1).isEmpty then
          { m1 with index := addUntracked m1.index files1 }
        else m1
      -- iter_commits on the unborn HEAD raises; the except branch yields false
      let has_commits := !m2.commits.isEmpty
      if !has_commits then
        let r := indexCommit m2 "Initial commit"
        ("Initialized repository with initial commit: " ++ r.1.take 7,
         { st with files := files1, git := some r.2 })
      else
        ("Initialized empty git repository at " ++ st.path,
         { st with files := files1, git := some m2 })
    else
      ("Initialized empty git repository at " ++ st.path,
       { st with git := some m0 })

/-- `GitManager.get_status`: an early empty status when the path is not a
valid repository (the `none` branch, without consulting the metadata);
otherwise the current branch (with the detached-HEAD sentinel), and the
staged (index vs HEAD, raising when HEAD does not resolve), modified
(index vs working tree) and untracked path lists. -/
def get_status (st : PathState) : Except GitError RepoStatus :=
  match st.git with
  | none => .ok { is_initialized := false, has_changes := false }
  | some m =>
    let current_branch :=
      match m.headRef with
      | .branch b => b
      | .detached _ => "HEAD (detached)"
    match headTree m with
    | none => .error (.badRef "HEAD")
    | some ht =>
      let staged := treeDiffPaths m.index ht
      let modified := treeDiffPaths m.index st.files
      let untracked := untracked_files m st.files
      .ok { is_initialized := true,
            current_branch := some current_branch,
            has_changes := !(staged.isEmpty && modified.isEmpty && untracked.isEmpty),
            staged_files := staged,
            modified_files := modified,
            untracked_files := untracked }

/-- `GitManager.commit_all(message)`: require an open session, stage all
(`git add -A`: the index becomes the working tree), then return the literal
"No changes to commit" when the index matches HEAD and nothing is untracked,
otherwise commit and return the new identifier.  Diffing the index against
the unresolvable HEAD of a repository with no commits raises. -/
def commit_all (st : PathState) (message : String) :
    Except GitError (String × PathState) :=
  match st.git with
  | none => .error (.notInitialized st.path)
  | some m =>
    let m1 : GitMeta := { m with index := st.files }
    match headTree m1 with
    | none => .error (.badRef "HEAD")
    | some ht =>
      if (treeDiffPaths m1.index ht).isEmpty
          && (untracked_files m1 st.files).isEmpty then
        .ok ("No changes to commit", { st with git := some m1 })
      else
        let r := indexCommit m1 message
        .ok (r.1, { st with git := some r.2 })

/-- `CommitInfo` built from one commit object, as in
`GitManager.list_commits`. -/
def commitInfoOf (c : CommitObj) : CommitInfo :=
  { sha := c.sha, short_sha := c.sha.take 7, message := pyStrip c.message,
    author := c.author, author_email := c.author_email,
    timestamp := c.committed_date }

/-- `GitManager.list_commits(branch, limit)`: walk history from the resolved
ref (an unresolvable ref raises), then label the list with the active branch
name when the input was "HEAD" and HEAD is attached, the detached-HEAD
sentinel when the input was "HEAD" and HEAD is detached, and the literal
input otherwise. -/
def list_commits (st : PathState) (branch : String) (limit : Nat) :
    Except GitError CommitList :=
  match st.git with
  | none => .error (.notInitialized st.path)
  | some m =>
    match resolveRev m branch with
    | none => .error (.badRef branch)
    | some sha =>
      let commit_infos := (walkHistory m sha limit).map commitInfoOf
      let branch_name :=
        if branch == "HEAD" then
          match m.headRef with
          | .branch b => b
          | .detached _ => "HEAD (detached)"
        else branch
      .ok { commits := commit_infos,
            total_count := commit_infos.length,
            branch := branch_name }

/-- The accepted rollback modes. -/
def valid_modes : List String := ["soft", "mixed", "hard"]

/-- `GitManager.rollback(commit_sha, mode)`: require an open session,
validate the mode before anything else, delegate to the backend reset
(abstracted as `resetFn`; the concrete backend is `gitResetBackend`), wrap a
backend failure, and return the new HEAD identifier. -/
def rollback
    (resetFn : GitMeta → Tree → String → String → Except String (GitMeta × Tree))
    (st : PathState) (commit_sha : String) (mode : String) :
    Except GitError (String × PathState) :=
  match st.git with
  | none => .error (.notInitialized st.path)
  | some m =>
    if !(valid_modes.contains mode) then .error (.validationError mode)
    else
      match resetFn m st.files mode commit_sha with
      | .error e => .error (.resetFailed commit_sha e)
      | .ok (m1, files1) =>
        match resolveHeadSha m1 with
        | none => .error (.badRef "HEAD")
        | some h => .ok (h, { st with files := files1, git := some m1 })

/-- One pass of the patch-scanning loop of `GitManager.compare_commits`:
count a line opening with "+" (but not "+++") as an addition, else a line
opening with "-" (but not "---") as a deletion. -/
def patchStep (acc : Nat × Nat) (line : String) : Nat × Nat :=
  if pyStartsWith line "+" && !(pyStartsWith line "+++") then (acc.1 + 1, acc.2)
  else if pyStartsWith line "-" && !(pyStartsWith line "---") then (acc.1, acc.2 + 1)
  else acc

/-- Addition and deletion counts of a patch body, scanned line by line. -/
def countPatch (patch : String) : Nat × Nat :=
  (pySplitNl patch).foldl patchStep (0, 0)

/-- The per-file record built inside the `compare_commits` loop: status by
the new / deleted / renamed / modified precedence, counts from the patch body
when it is truthy, and the post-change path falling back to the pre-change
path. -/
def fileChangeOfDiff (d : DiffEntry) : FileChange :=
  let status :=
    if d.new_file then "added"
    else if d.deleted_file then "deleted"
    else if d.renamed then "renamed"
    else "modified"
  let patch := d.diff
  let counts := if pyTruthyStr patch then countPatch (patch.getD "") else (0, 0)
  { filename := pyOrStr d.b_path d.a_path,
    status := status,
    additions := counts.1,
    deletions := counts.2,
    patch := patch }

/-- The `compare_commits` loop over the backend's diff entries, accumulating
the file list and the two running totals in order. -/
def diffLoop : List DiffEntry → List FileChange × Nat × Nat
  | [] => ([], 0, 0)
  | d :: ds =>
    let fc := fileChangeOfDiff d
    let rest := diffLoop ds
    (fc :: rest.1, fc.additions + rest.2.1, fc.deletions + rest.2.2)

/-- `GitManager.compare_commits(from_sha, to_sha)`: resolve both identifiers
(raising on either failure), take the backend's tree-level diff (abstracted
as `diffFn`), aggregate the per-file records and totals, and echo the literal
inputs with a derived summary line. -/
def compare_commits (diffFn : CommitObj → CommitObj → List DiffEntry)
    (st : PathState) (from_sha to_sha : String) : Except GitError CommitDiff :=
  match st.git with
  | none => .error (.notInitialized st.path)
  | some m =>
    match repoCommit m from_sha with
    | none => .error (.badRef from_sha)
    | some fc =>
      match repoCommit m to_sha with
      | none => .error (.badRef to_sha)
      | some tc =>
        let r := diffLoop (diffFn fc tc)
        .ok { from_commit := from_sha,
              to_commit := to_sha,
              files := r.1,
              total_additions := r.2.1,
              total_deletions := r.2.2,
              summary := toString r.1.length ++ " files changed, "
                ++ toString r.2.1 ++ " insertions(+), "
                ++ toString r.2.2 ++ " deletions(-)" }

/-- `GitManager.create_branch(branch_name, from_ref)`: with a truthy
`from_ref`, resolve it (raising when unresolvable) and create the pointer
there; otherwise create it at the resolved HEAD.  No checkout happens. -/
def create_branch (st : PathState) (branch_name : String)
    (from_ref : Option String) : Except GitError (String × PathState) :=
  match st.git with
  | none => .error (.notInitialized st.path)
  | some m =>
    if pyTruthyStr from_ref then
      match repoCommit m (from_ref.getD "") with
      | none => .error (.badRef (from_ref.getD ""))
      | some c =>
        match createHead m branch_name c.sha with
        | .error e => .error e
        | .ok m1 => .ok (branch_name, { st with git := some m1 })
    else
      match resolveHeadSha m with
      | none => .error (.badRef "HEAD")
      | some sha =>
        match createHead m branch_name sha with
        | .error e => .error e
        | .ok m1 => .ok (branch_name, { st with git := some m1 })

/-- `GitManager.switch_branch(branch_name)`: raise when the name is not a
local branch, otherwise check the branch out (HEAD attaches to it; index and
working tree match its tip) and return the now-active branch name. -/
def switch_branch (st : PathState) (branch_name : String) :
    Except GitError (String × PathState) :=
  match st.git with
  | none => .error (.notInitialized st.path)
  | some m =>
    match m.branches.find? (fun e => e.1 == branch_name) with
    | none => .error (.branchNotFound branch_name)
    | some e =>
      match findCommit m e.2 with
      | none => .error (.badRef e.2)
      | some c =>
        let m1 : GitMeta :=
          { m with headRef := .branch branch_name, index := c.tree }
        .ok (branch_name, { st with files := c.tree, git := some m1 })

/-- First line of a message, as `message.strip().split("\n")[0]`. -/
def firstLine (s : String) : String := (pySplitNl s).headD ""

/-- `GitManager.list_branches`: one record per branch pointer, `is_current`
by name equality against the active branch (false for all when detached);
the tip lookup always succeeds in a well-formed repository. -/
def list_branches (st : PathState) : Except GitError (List BranchInfo) :=
  match st.git with
  | none => .error (.notInitialized st.path)
  | some m =>
    let current : Option String :=
      match m.headRef with
      | .branch b => some b
      | .detached _ => none
    .ok (m.branches.map (fun e =>
      let tip := findCommit m e.2
      { name := e.1,
        is_current := match current with
          | some c => e.1 == c
          | none => false,
        last_commit_sha := ((tip.map CommitObj.sha).getD "").take 7,
        last_commit_message := firstLine (pyStrip ((tip.map CommitObj.message).getD "")) }))

/- ===== Operation Dispatcher (tools.py) ===== -/

/-- tools.py `initialize_repo`. -/
def tool_init_repo (st : PathState) (initial_commit : Bool) :
    String × PathState :=
  init_repo st initial_commit

/-- tools.py `get_repo_status` (JSON serialization elided). -/
def tool_get_repo_status (st : PathState) : Except GitError RepoStatus :=
  get_status st

/-- tools.py `commit_all_changes`: the one operation that lazily initializes
(`initialize(initial_commit=False)`) before delegating. -/
def tool_commit_all_changes (st : PathState) (message : String) :
    Except GitError (String × PathState) :=
  let st1 := if !(is_initialized st) then (init_repo st false).2 else st
  commit_all st1 message

/-- tools.py `list_commits`. -/
def tool_list_commits (st : PathState) (branch : String) (limit : Nat) :
    Except GitError CommitList :=
  list_commits st branch limit

/-- tools.py `rollback_to_commit`, with its confirmation message. -/
def tool_rollback_to_commit (st : PathState) (commit_sha mode : String) :
    Except GitError (String × PathState) :=
  match rollback gitResetBackend st commit_sha mode with
  | .error e => .error e
  | .ok (new_head, st1) =>
    .ok ("Rolled back to " ++ commit_sha.take 7 ++ ". New HEAD: "
           ++ new_head.take 7 ++ " (mode: " ++ mode ++ ")", st1)

/-- tools.py `compare_commits`. -/
def tool_compare_commits (diffFn : CommitObj → CommitObj → List DiffEntry)
    (st : PathState) (from_commit to_commit : String) :
    Except GitError CommitDiff :=
  compare_commits diffFn st from_commit to_commit

/-- tools.py `create_branch`, with its confirmation message. -/
def tool_create_branch (st : PathState) (branch_name : String)
    (from_ref : Option String) : Except GitError (String × PathState) :=
  match create_branch st branch_name from_ref with
  | .error e => .error e
  | .ok (name, st1) => .ok ("Created branch: " ++ name, st1)

/-- tools.py `switch_branch`, with its confirmation message. -/
def tool_switch_branch (st : PathState) (branch_name : String) :
    Except GitError (String × PathState) :=
  match switch_branch st branch_name with
  | .error e => .error e
  | .ok (current, st1) => .ok ("Switched to branch: " ++ current, st1)

/-- tools.py `list_branches`: the line-per-branch text listing. -/
def tool_list_branches (st : PathState) : Except GitError String :=
  match list_branches st with
  | .error e => .error e
  | .ok bs =>
    .ok (String.intercalate "\n" (bs.map (fun b =>
      (if b.is_current then "* " else "  ") ++ b.name ++ " ("
        ++ b.last_commit_sha ++ "): " ++ b.last_commit_message)))

/- ===== Example states used by witnesses ===== -/

/-- A root commit whose tree holds one file. -/
def exCommit0 : CommitObj :=
  { sha := "c0sha", message := "Initial commit", parents := [],
    tree := [("a.txt", "hello")], author := "user",
    author_email := "user@example.com", committed_date := 0 }

/-- A clean attached repository: one branch at the root commit, index and
working tree matching its tree. -/
def exMeta : GitMeta :=
  { branches := [("master", "c0sha")], headRef := .branch "master",
    commits := [exCommit0], index := [("a.txt", "hello")] }

/-- Path state for `exMeta` with a clean working tree. -/
def exState : PathState :=
  { path := "/tmp/repo", files := [("a.txt", "hello")], git := some exMeta }

/-- Path state for `exMeta` with one extra untracked file. -/
def exStateDirty : PathState :=
  { path := "/tmp/repo", files := [("a.txt", "hello"), ("b.txt", "new")],
    git := some exMeta }

/-- A detached-HEAD repository at the root commit. -/
def exMetaDetached : GitMeta :=
  { branches := [], headRef := .detached "c0sha", commits := [exCommit0],
    index := [("a.txt", "hello")] }

/-- Path state for `exMetaDetached`. -/
def exStateDetached : PathState :=
  { path := "/tmp/repo", files := [("a.txt", "hello")],
    git := some exMetaDetached }

/-- A path that is not a valid repository. -/
def exStateNoRepo : PathState :=
  { path := "/tmp/repo", files := [], git := none }

/-- A freshly initialized repository with an unborn HEAD and empty
directory. -/
def exStateUnborn : PathState :=
  { path := "/tmp/repo", files := [], git := some emptyMeta }

/- ===== Helper lemmas ===== -/

/-- The branch label `get_status` reports for a HEAD reference. -/
def branchLabel : HeadRef → String
  | .branch b => b
  | .detached _ => "HEAD (detached)"

theorem contains_eq_false_of_not_mem (l : List String) (a : String)
    (h : a ∉ l) : l.contains a = false := by
  simp only [List.contains, List.elem_eq_mem, decide_eq_false_iff_not]
  exact h

theorem get_status_current_branch_eq (st : PathState) (m : GitMeta)
    (s : RepoStatus) (hm : st.git = some m) (h : get_status st = .ok s) :
    s.current_branch = some (branchLabel m.headRef) := by
  obtain ⟨p, files, g⟩ := st
  cases hm
  simp only [get_status] at h
  cases hht : headTree m with
  | none => simp [hht] at h
  | some ht =>
    rw [hht] at h
    cases hr : m.headRef with
    | branch b =>
      rw [hr] at h
      cases h
      simp [branchLabel, hr]
    | detached sha =>
      rw [hr] at h
      cases h
      simp [branchLabel, hr]

theorem pyStartsWith_plus_minus (l : String) (h : pyStartsWith l "+" = true) :
    pyStartsWith l "-" = false := by
  unfold pyStartsWith at h ⊢
  simp only [List.isPrefixOf_iff_prefix] at h
  rw [Bool.eq_false_iff]
  intro hcon
  simp only [List.isPrefixOf_iff_prefix] at hcon
  obtain ⟨t1, ht1⟩ := h
  obtain ⟨t2, ht2⟩ := hcon
  rw [← ht1] at ht2
  simp at ht2

theorem foldl_patchStep_fst (ls : List String) (a b : Nat) :
    (ls.foldl patchStep (a, b)).1 =
      a + (ls.filter
        (fun l => pyStartsWith l "+" && !(pyStartsWith l "+++"))).length := by
  induction ls generalizing a b with
  | nil => simp
  | cons x xs ih =>
    simp only [List.foldl_cons, List.filter_cons]
    by_cases hx : (pyStartsWith x "+" && !(pyStartsWith x "+++")) = true
    · have hstep : patchStep (a, b) x = (a + 1, b) := by
        simp [patchStep, hx]
      rw [if_pos hx, hstep, ih]
      simp [List.length_cons]
      omega
    · rw [if_neg hx]
      by_cases hd : (pyStartsWith x "-" && !(pyStartsWith x "---")) = true
      · have hstep : patchStep (a, b) x = (a, b + 1) := by
          simp [patchStep, hx, hd]
        rw [hstep, ih]
      · have hstep : patchStep (a, b) x = (a, b) := by
          simp [patchStep, hx, hd]
        rw [hstep, ih]

theorem foldl_patchStep_snd (ls : List String) (a b : Nat) :
    (ls.foldl patchStep (a, b)).2 =
      b + (ls.filter
        (fun l => pyStartsWith l "-" && !(pyStartsWith l "---"))).length := by
  induction ls generalizing a b with
  | nil => simp
  | cons x xs ih =>
    simp only [List.foldl_cons, List.filter_cons]
    by_cases hx : (pyStartsWith x "+" && !(pyStartsWith x "+++")) = true
    · have hpl : pyStartsWith x "+" = true := by
        revert hx
        cases pyStartsWith x "+" <;> simp
      have hmn : pyStartsWith x "-" = false := pyStartsWith_plus_minus x hpl
      have hd : (pyStartsWith x "-" && !(pyStartsWith x "---")) = false := by
        simp [hmn]
      have hstep : patchStep (a, b) x = (a + 1, b) := by
        simp [patchStep, hx]
      rw [if_neg (by simp [hd]), hstep, ih]
    · by_cases hd : (pyStartsWith x "-" && !(pyStartsWith x "---")) = true
      · have hstep : patchStep (a, b) x = (a, b + 1) := by
          simp [patchStep, hx, hd]
        rw [if_pos hd, hstep, ih]
        simp [List.length_cons]
        omega
      · have hstep : patchStep (a, b) x = (a, b) := by
          simp [patchStep, hx, hd]
        rw [if_neg hd, hstep, ih]

/- ===== Claims ===== -/

/-- C2: for every path that is not a valid repository root, `get_status`
returns a status with `is_initialized = false`, `has_changes = false`, no
current branch and all three file lists empty, without touching the
metadata, and `is_initialized` is false for the same path. -/
theorem get_status_not_a_repo (p : String) (files : Tree) :
    get_status { path := p, files := files, git := none } =
      .ok { is_initialized := false, current_branch := none,
            has_changes := false, staged_files := [], modified_files := [],
            untracked_files := [] }
    ∧ is_initialized { path := p, files := files, git := none } = false :=
  ⟨rfl, rfl⟩

/-- C8: `initialize` on a path where a valid repository already exists is a
no-op for either value of `initial_commit`: it returns the
"already initialized" message and the state is unchanged. -/
theorem init_repo_idempotent (st : PathState) (b : Bool)
    (h : st.git.isSome = true) :
    init_repo st b = ("Repository already initialized at " ++ st.path, st) := by
  unfold init_repo
  simp [h]

/-- Witness for C8 at a concrete initialized repository. -/
theorem init_repo_idempotent_witness :
    exState.git.isSome = true ∧
    init_repo exState true =
      ("Repository already initialized at /tmp/repo", exState) :=
  ⟨rfl, by rw [init_repo_idempotent exState true rfl]; rfl⟩

/-- C3: `rollback` with a mode outside {"soft", "mixed", "hard"} fails with
a validation error for every target and every backend reset primitive, so
the reset is never invoked and the repository is left untouched. -/
theorem rollback_invalid_mode
    (resetFn : GitMeta → Tree → String → String → Except String (GitMeta × Tree))
    (st : PathState) (m : GitMeta) (commit_sha mode : String)
    (hm : st.git = some m) (hmode : mode ∉ valid_modes) :
    rollback resetFn st commit_sha mode = .error (.validationError mode) := by
  obtain ⟨p, files, g⟩ := st
  cases hm
  simp only [rollback]
  rw [contains_eq_false_of_not_mem _ _ hmode]
  rfl

theorem diffLoop_files (ds : List DiffEntry) :
    (diffLoop ds).1 = ds.map fileChangeOfDiff := by
  induction ds with
  | nil => rfl
  | cons d ds ih => simp [diffLoop, ih]

theorem diffLoop_adds (ds : List DiffEntry) :
    (diffLoop ds).2.1 = ((diffLoop ds).1.map FileChange.additions).sum := by
  induction ds with
  | nil => rfl
  | cons d ds ih => simp [diffLoop, ih]

theorem diffLoop_dels (ds : List DiffEntry) :
    (diffLoop ds).2.2 = ((diffLoop ds).1.map FileChange.deletions).sum := by
  induction ds with
  | nil => rfl
  | cons d ds ih => simp [diffLoop, ih]

/-- C6: every file entry of `compare_commits` takes its status by the
added / deleted / renamed / modified precedence over the backend flags, and
its addition (resp. deletion) count is the number of patch lines starting
with "+" (resp. "-") excluding "+++" (resp. "---") lines, both zero when the
patch is absent. -/
theorem file_change_status_and_counts (d : DiffEntry) :
    (fileChangeOfDiff d).status =
      (if d.new_file then "added"
       else if d.deleted_file then "deleted"
       else if d.renamed then "renamed"
       else "modified") ∧
    (fileChangeOfDiff d).additions =
      (match d.diff with
       | none => 0
       | some p => ((pySplitNl p).filter
           (fun l => pyStartsWith l "+" && !(pyStartsWith l "+++"))).length) ∧
    (fileChangeOfDiff d).deletions =
      (match d.diff with
       | none => 0
       | some p => ((pySplitNl p).filter
           (fun l => pyStartsWith l "-" && !(pyStartsWith l "---"))).length) := by
  refine ⟨by simp only [fileChangeOfDiff], ?_, ?_⟩
  · cases hd : d.diff with
    | none => simp [fileChangeOfDiff, hd, pyTruthyStr]
    | some p =>
      by_cases hp : p = ""
      · subst hp
        simp only [fileChangeOfDiff, hd]
        decide
      · have ht : pyTruthyStr (some p) = true := by simp [pyTruthyStr, hp]
        simp only [fileChangeOfDiff, hd, ht, if_pos, Option.getD_some]
        rw [countPatch, foldl_patchStep_fst]
        simp
  · cases hd : d.diff with
    | none => simp [fileChangeOfDiff, hd, pyTruthyStr]
    | some p =>
      by_cases hp : p = ""
      · subst hp
        simp only [fileChangeOfDiff, hd]
        decide
      · have ht : pyTruthyStr (some p) = true := by simp [pyTruthyStr, hp]
        simp only [fileChangeOfDiff, hd, ht, if_pos, Option.getD_some]
        rw [countPatch, foldl_patchStep_snd]
        simp

/-- C4: every successful `compare_commits` result has `total_additions` and
`total_deletions` equal to the sums over its file entries, the derived
"N files changed, A insertions(+), D deletions(-)" summary, and the two
input identifiers echoed back unresolved. -/
theorem compare_commits_totals
    (diffFn : CommitObj → CommitObj → List DiffEntry)
    (st : PathState) (a b : String) (d : CommitDiff)
    (h : compare_commits diffFn st a b = .ok d) :
    d.total_additions = (d.files.map FileChange.additions).sum ∧
    d.total_deletions = (d.files.map FileChange.deletions).sum ∧
    d.summary = toString d.files.length ++ " files changed, "
      ++ toString d.total_additions ++ " insertions(+), "
      ++ toString d.total_deletions ++ " deletions(-)" ∧
    d.from_commit = a ∧ d.to_commit = b := by
  obtain ⟨p, files, g⟩ := st
  cases g with
  | none => simp [compare_commits] at h
  | some m =>
    simp only [compare_commits] at h
    cases hf : repoCommit m a with
    | none => rw [hf] at h; simp at h
    | some fc =>
      rw [hf] at h
      cases htc : repoCommit m b with
      | none => rw [htc] at h; simp at h
      | some tc =>
        rw [htc] at h
        injection h with h
        subst h
        exact ⟨diffLoop_adds _, diffLoop_dels _, rfl, rfl, rfl⟩

/-- Concrete diff entry for an added file. -/
def exDiffAdd : DiffEntry :=
  { new_file := true, deleted_file := false, renamed := false,
    a_path := none, b_path := some "b.txt", diff := some "+x\n+y" }

/-- Concrete diff entry for a deleted file. -/
def exDiffDel : DiffEntry :=
  { new_file := false, deleted_file := true, renamed := false,
    a_path := some "a.txt", b_path := none, diff := some "-z" }

/-- The `CommitDiff` produced for `exDiffAdd` and `exDiffDel`. -/
def exDiffResult : CommitDiff :=
  { from_commit := "c0sha", to_commit := "c0sha",
    files :=
      [ { filename := some "b.txt", status := "added", additions := 2,
          deletions := 0, patch := some "+x\n+y" },
        { filename := some "a.txt", status := "deleted", additions := 0,
          deletions := 1, patch := some "-z" } ],
    total_additions := 2, total_deletions := 1,
    summary := "2 files changed, 2 insertions(+), 1 deletions(-)" }

/-- Witness for C4 at a concrete repository and backend diff. -/
theorem compare_commits_totals_witness :
    compare_commits (fun _ _ => [exDiffAdd, exDiffDel]) exState "c0sha" "c0sha"
      = .ok exDiffResult ∧
    exDiffResult.total_additions
      = (exDiffResult.files.map FileChange.additions).sum ∧
    exDiffResult.summary = toString exDiffResult.files.length
      ++ " files changed, " ++ toString exDiffResult.total_additions
      ++ " insertions(+), " ++ toString exDiffResult.total_deletions
      ++ " deletions(-)" ∧
    exDiffResult.from_commit = "c0sha" ∧ exDiffResult.to_commit = "c0sha" := by
  have hok : compare_commits (fun _ _ => [exDiffAdd, exDiffDel]) exState
      "c0sha" "c0sha" = .ok exDiffResult := rfl
  have hmain := compare_commits_totals (fun _ _ => [exDiffAdd, exDiffDel])
    exState "c0sha" "c0sha" exDiffResult hok
  exact ⟨hok, hmain.1, hmain.2.2.1, hmain.2.2.2.1, hmain.2.2.2.2⟩

/-- C1: `commit_all` with an open session first stages everything (the
resulting index is the working tree); on success it either returns the
literal "No changes to commit" with no commit created (exactly when nothing
is staged against HEAD and nothing is untracked after staging), or creates a
commit carrying the supplied message and returns that commit's full
identifier. -/
theorem commit_all_spec (st : PathState) (m : GitMeta) (msg : String)
    (hm : st.git = some m) (out : String) (st1 : PathState)
    (h : commit_all st msg = .ok (out, st1)) :
    ∃ ht, headTree { m with index := st.files } = some ht ∧
      (∃ m1, st1.git = some m1 ∧ m1.index = st.files) ∧
      (((treeDiffPaths st.files ht).isEmpty
          && (untracked_files { m with index := st.files } st.files).isEmpty)
            = true →
        out = "No changes to commit" ∧
        st1 = { st with git := some { m with index := st.files } }) ∧
      (((treeDiffPaths st.files ht).isEmpty
          && (untracked_files { m with index := st.files } st.files).isEmpty)
            = false →
        ∃ c m1, st1.git = some m1 ∧ m1.commits = c :: m.commits ∧
          c.message = msg ∧ out = c.sha) := by
  obtain ⟨p, files, g⟩ := st
  cases hm
  simp only [commit_all] at h
  cases hht : headTree { m with index := files } with
  | none => rw [hht] at h; simp at h
  | some ht =>
    rw [hht] at h
    dsimp only at h
    refine ⟨ht, rfl, ?_, ?_, ?_⟩
    · by_cases hc : ((treeDiffPaths files ht).isEmpty
          && (untracked_files { m with index := files } files).isEmpty) = true
      · rw [if_pos hc] at h
        injection h with h
        injection h with h1 h2
        subst h2
        exact ⟨{ m with index := files }, rfl, rfl⟩
      · rw [if_neg hc] at h
        injection h with h
        injection h with h1 h2
        subst h2
        exact ⟨(indexCommit { m with index := files } msg).2, rfl, rfl⟩
    · intro hc
      rw [if_pos hc] at h
      injection h with h
      injection h with h1 h2
      subst h1
      subst h2
      exact ⟨rfl, rfl⟩
    · intro hc
      rw [if_neg (by simp [hc])] at h
      injection h with h
      injection h with h1 h2
      subst h1
      subst h2
      exact ⟨_, _, rfl, rfl, rfl, rfl⟩

/-- Witness for C1 at a concrete clean repository: the literal
"No changes to commit" comes back and no commit is created. -/
theorem commit_all_spec_witness :
    exState.git = some exMeta ∧
    commit_all exState "save" = .ok ("No changes to commit", exState) ∧
    (∃ ht, headTree { exMeta with index := exState.files } = some ht ∧
      (∃ m1, exState.git = some m1 ∧ m1.index = exState.files) ∧
      (((treeDiffPaths exState.files ht).isEmpty
          && (untracked_files { exMeta with index := exState.files }
                exState.files).isEmpty) = true →
        "No changes to commit" = "No changes to commit" ∧
        exState = { exState with
                    git := some { exMeta with index := exState.files } }) ∧
      (((treeDiffPaths exState.files ht).isEmpty
          && (untracked_files { exMeta with index := exState.files }
                exState.files).isEmpty) = false →
        ∃ c m1, exState.git = some m1 ∧ m1.commits = c :: exMeta.commits ∧
          c.message = "save" ∧ "No changes to commit" = c.sha)) := by
  have hok : commit_all exState "save" = .ok ("No changes to commit", exState) :=
    rfl
  exact ⟨rfl, hok,
    commit_all_spec exState exMeta "save" rfl "No changes to commit" exState hok⟩

theorem walkHistory_length_le (m : GitMeta) (sha : String) (n : Nat) :
    (walkHistory m sha n).length ≤ n := by
  induction n generalizing sha with
  | zero => simp [walkHistory]
  | succ k ih =>
    simp only [walkHistory]
    cases hfc : findCommit m sha with
    | none => simp
    | some c =>
      cases hp : c.parents with
      | nil => simp [hp]
      | cons q qs =>
        simp [hp]
        have := ih q
        omega

/-- C5 is false as stated: for the input ref "HEAD" with HEAD detached, the
branch field is the sentinel "HEAD (detached)", not the literal input. -/
theorem list_commits_detached_counterexample :
    (list_commits exStateDetached "HEAD" 10).map CommitList.branch
      = .ok "HEAD (detached)" ∧
    "HEAD (detached)" ≠ "HEAD" :=
  ⟨rfl, by decide⟩

/-- C5 (amended): every successful `list_commits` result has `total_count`
equal to the length of the returned sequence, at most `limit` commits, and a
branch field that is the active branch name when the input ref is "HEAD" and
HEAD is attached, the sentinel "HEAD (detached)" when the input ref is
"HEAD" and HEAD is detached, and the literal input ref otherwise. -/
theorem list_commits_fields (st : PathState) (m : GitMeta) (r : String)
    (n : Nat) (cl : CommitList) (hm : st.git = some m)
    (h : list_commits st r n = .ok cl) :
    cl.total_count = cl.commits.length ∧
    cl.commits.length ≤ n ∧
    cl.branch = (if r = "HEAD" then branchLabel m.headRef else r) := by
  obtain ⟨p, files, g⟩ := st
  cases hm
  simp only [list_commits] at h
  cases hr : resolveRev m r with
  | none => rw [hr] at h; simp at h
  | some sha =>
    rw [hr] at h
    dsimp only at h
    injection h with h
    subst h
    refine ⟨rfl, ?_, ?_⟩
    · simpa using walkHistory_length_le m sha n
    · by_cases hhead : r = "HEAD"
      · subst hhead
        cases m.headRef <;> simp [branchLabel]
      · simp [hhead, branchLabel]

/-- The `CommitList` that `list_commits exState "HEAD" 10` produces. -/
def exCommitListW : CommitList :=
  { commits := [{ sha := "c0sha", short_sha := "c0sha",
                  message := "Initial commit", author := "user",
                  author_email := "user@example.com", timestamp := 0 }],
    total_count := 1, branch := "master" }

/-- Witness for C5 (amended) at a concrete attached repository. -/
theorem list_commits_fields_witness :
    exState.git = some exMeta ∧
    list_commits exState "HEAD" 10 = .ok exCommitListW ∧
    (exCommitListW.total_count = exCommitListW.commits.length ∧
     exCommitListW.commits.length ≤ 10 ∧
     exCommitListW.branch =
       (if "HEAD" = "HEAD" then branchLabel exMeta.headRef else "HEAD")) :=
  ⟨rfl, rfl,
   list_commits_fields exState exMeta "HEAD" 10 exCommitListW rfl rfl⟩

/-- C7: on a path with no valid repository, every dispatched operation that
requires a repository surfaces the Session Manager's not-initialized error
untouched (and initializes nothing, no state being produced), while
`commit_all_changes` alone first initializes with no initial commit and then
delegates to `commit_all`. -/
theorem dispatcher_not_initialized (st : PathState) (hm : st.git = none)
    (msg branch commit_sha mode name a b : String) (limit : Nat)
    (fr : Option String)
    (diffFn : CommitObj → CommitObj → List DiffEntry) :
    tool_list_commits st branch limit = .error (.notInitialized st.path) ∧
    tool_rollback_to_commit st commit_sha mode
      = .error (.notInitialized st.path) ∧
    tool_compare_commits diffFn st a b = .error (.notInitialized st.path) ∧
    tool_create_branch st name fr = .error (.notInitialized st.path) ∧
    tool_switch_branch st name = .error (.notInitialized st.path) ∧
    tool_list_branches st = .error (.notInitialized st.path) ∧
    tool_commit_all_changes st msg = commit_all (init_repo st false).2 msg := by
  obtain ⟨p, files, g⟩ := st
  cases hm
  exact ⟨rfl, rfl, rfl, rfl, rfl, rfl, rfl⟩

/-- Witness for C7 at a concrete path with no repository. -/
theorem dispatcher_not_initialized_witness :
    exStateNoRepo.git = none ∧
    (tool_list_commits exStateNoRepo "HEAD" 10
       = .error (.notInitialized exStateNoRepo.path) ∧
     tool_rollback_to_commit exStateNoRepo "c0sha" "soft"
       = .error (.notInitialized exStateNoRepo.path) ∧
     tool_compare_commits (fun _ _ => []) exStateNoRepo "a" "b"
       = .error (.notInitialized exStateNoRepo.path) ∧
     tool_create_branch exStateNoRepo "dev" none
       = .error (.notInitialized exStateNoRepo.path) ∧
     tool_switch_branch exStateNoRepo "dev"
       = .error (.notInitialized exStateNoRepo.path) ∧
     tool_list_branches exStateNoRepo
       = .error (.notInitialized exStateNoRepo.path) ∧
     tool_commit_all_changes exStateNoRepo "save"
       = commit_all (init_repo exStateNoRepo false).2 "save") :=
  ⟨rfl,
   dispatcher_not_initialized exStateNoRepo rfl "save" "HEAD" "c0sha" "soft"
     "dev" "a" "b" 10 none (fun _ _ => [])⟩

theorem createHead_ok (m : GitMeta) (name sha : String) (m1 : GitMeta)
    (h : createHead m name sha = .ok m1) :
    m1 = { m with branches := m.branches ++ [(name, sha)] } := by
  unfold createHead at h
  by_cases hc : (m.branches.any (fun e => e.1 == name)) = true
  · rw [if_pos hc] at h; simp at h
  · rw [if_neg hc] at h
    injection h with h
    exact h.symm

/-- C9: `create_branch` with an attached HEAD creates the new branch pointer
but performs no switch: HEAD, index, commit list, working tree and path are
unchanged, and the current branch reported by `get_status` is the same
before and after. -/
theorem create_branch_no_switch (st : PathState) (m : GitMeta) (b x : String)
    (fr : Option String) (hm : st.git = some m)
    (hb : m.headRef = HeadRef.branch b) (out : String) (st1 : PathState)
    (h : create_branch st x fr = .ok (out, st1)) :
    ∃ m1 sha, st1.git = some m1 ∧
      m1.headRef = m.headRef ∧
      m1.branches = m.branches ++ [(x, sha)] ∧
      m1.index = m.index ∧
      m1.commits = m.commits ∧
      st1.files = st.files ∧
      st1.path = st.path ∧
      (∀ s s1, get_status st = .ok s → get_status st1 = .ok s1 →
        s1.current_branch = s.current_branch) := by
  obtain ⟨p, files, g⟩ := st
  cases hm
  simp only [create_branch] at h
  by_cases htr : pyTruthyStr fr = true
  · rw [if_pos htr] at h
    cases hrc : repoCommit m (fr.getD "") with
    | none => rw [hrc] at h; simp at h
    | some c =>
      rw [hrc] at h
      dsimp only at h
      cases hch : createHead m x c.sha with
      | error e => rw [hch] at h; simp at h
      | ok m1 =>
        rw [hch] at h
        dsimp only at h
        injection h with h
        injection h with h1 h2
        subst h2
        have hm1 := createHead_ok m x c.sha m1 hch
        subst hm1
        refine ⟨_, c.sha, rfl, rfl, rfl, rfl, rfl, rfl, rfl, ?_⟩
        intro s s1 h1' h2'
        rw [get_status_current_branch_eq _ m _ rfl h1',
            get_status_current_branch_eq _ _ _ rfl h2']
  · rw [if_neg htr] at h
    cases hhs : resolveHeadSha m with
    | none => rw [hhs] at h; simp at h
    | some sha =>
      rw [hhs] at h
      dsimp only at h
      cases hch : createHead m x sha with
      | error e => rw [hch] at h; simp at h
      | ok m1 =>
        rw [hch] at h
        dsimp only at h
        injection h with h
        injection h with h1 h2
        subst h2
        have hm1 := createHead_ok m x sha m1 hch
        subst hm1
        refine ⟨_, sha, rfl, rfl, rfl, rfl, rfl, rfl, rfl, ?_⟩
        intro s s1 h1' h2'
        rw [get_status_current_branch_eq _ m _ rfl h1',
            get_status_current_branch_eq _ _ _ rfl h2']

/-- The repository after `create_branch exState "dev" none`. -/
def exMetaBranched : GitMeta :=
  { exMeta with branches := [("master", "c0sha"), ("dev", "c0sha")] }

/-- Path state after `create_branch exState "dev" none`. -/
def exStateBranched : PathState := { exState with git := some exMetaBranched }

/-- Witness for C9 at a concrete repository. -/
theorem create_branch_no_switch_witness :
    exState.git = some exMeta ∧
    exMeta.headRef = HeadRef.branch "master" ∧
    create_branch exState "dev" none = .ok ("dev", exStateBranched) ∧
    (∃ m1 sha, exStateBranched.git = some m1 ∧
      m1.headRef = exMeta.headRef ∧
      m1.branches = exMeta.branches ++ [("dev", sha)] ∧
      m1.index = exMeta.index ∧
      m1.commits = exMeta.commits ∧
      exStateBranched.files = exState.files ∧
      exStateBranched.path = exState.path ∧
      (∀ s s1, get_status exState = .ok s →
        get_status exStateBranched = .ok s1 →
        s1.current_branch = s.current_branch)) :=
  ⟨rfl, rfl, rfl,
   create_branch_no_switch exState exMeta "master" "dev" none rfl rfl "dev"
     exStateBranched rfl⟩

/-- C10: on an initialized repository whose HEAD does not resolve (zero
commits, unborn HEAD), `get_status` and `commit_all` raise instead of
returning a status or the "No changes to commit" string, because the staged
set diffs the index against the unresolvable "HEAD"; in particular
`commit_all_changes` on a fresh empty directory fails right after
auto-initializing. -/
theorem unborn_head_raises (st : PathState) (m : GitMeta) (msg p : String)
    (hm : st.git = some m) (hh : resolveHeadSha m = none) :
    get_status st = .error (.badRef "HEAD") ∧
    commit_all st msg = .error (.badRef "HEAD") ∧
    tool_commit_all_changes { path := p, files := [], git := none } msg
      = .error (.badRef "HEAD") := by
  obtain ⟨q, files, g⟩ := st
  cases hm
  have hht : headTree m = none := by simp [headTree, hh]
  have hh2 : resolveHeadSha { m with index := files } = none := hh
  have hht2 : headTree { m with index := files } = none := by
    simp [headTree, hh2]
  refine ⟨?_, ?_, rfl⟩
  · simp [get_status, hht]
  · simp [commit_all, hht2]

/-- Witness for C10 at a freshly initialized empty repository. -/
theorem unborn_head_raises_witness :
    exStateUnborn.git = some emptyMeta ∧
    resolveHeadSha emptyMeta = none ∧
    (get_status exStateUnborn = .error (.badRef "HEAD") ∧
     commit_all exStateUnborn "save" = .error (.badRef "HEAD") ∧
     tool_commit_all_changes
       { path := "/tmp/fresh", files := [], git := none } "save"
       = .error (.badRef "HEAD")) :=
  ⟨rfl, rfl,
   unborn_head_raises exStateUnborn emptyMeta "save" "/tmp/fresh" rfl rfl⟩

/-- Witness for C3 at a concrete repository and the mode "invalid". -/
theorem rollback_invalid_mode_witness :
    "invalid" ∉ valid_modes ∧
    rollback gitResetBackend exState "c0sha" "invalid" =
      .error (.validationError "invalid") :=
  ⟨by decide,
   rollback_invalid_mode gitResetBackend exState exMeta "c0sha" "invalid" rfl
     (by decide)⟩

end VCH
